import Mathlib

/-!
Verification development for the unified trading system
(signal parser, risk sizer, execution planner, protection monitor,
reconciliation, dedup gate).  Prices, sizes and times are modelled as
rationals; Python rounding (`round`, `math.floor`, `math.ceil`) is made
explicit.
-/

set_option maxRecDepth 10000

namespace UnifiedTrading

/-- Round half to even of a rational to an integer, the idealisation of
the Python built-in `round`. -/
def roundHalfEven (q : ℚ) : ℤ :=
  let f := ⌊q⌋
  let r := q - (f : ℚ)
  if r < 1/2 then f
  else if 1/2 < r then f + 1
  else if f % 2 = 0 then f else f + 1

/-- Python `round(q, n)`: round half to even at `n` decimal places. -/
def pyRound (q : ℚ) (n : ℕ) : ℚ :=
  ((roundHalfEven (q * 10 ^ n) : ℚ)) / 10 ^ n

/-- Step floor `math.floor(q / step) * step` — round a quantity down to a step grid. -/
def floorToStep (q step : ℚ) : ℚ :=
  ((⌊q / step⌋ : ℤ) : ℚ) * step

/-- Step ceiling `math.ceil(q / step) * step` — round a quantity up to a step grid. -/
def ceilToStep (q step : ℚ) : ℚ :=
  ((⌈q / step⌉ : ℤ) : ℚ) * step

/-! ## risk_manager.py -/

/-- The venue rules consumed by `RiskManager.calculate_bybit_qty`
(Bybit V5 `lotSizeFilter` fields, passed as plain data). -/
structure BybitRules where
  qtyStep : ℚ
  minOrderQty : ℚ
  minNotionalValue : ℚ
  deriving DecidableEq

/-- Embedding of `RiskManager.calculate_bybit_qty`
(src/backend/risk_manager.py, lines 47-87).  `risk` is the configured
`default_risk` fraction.  In ℚ, `x / 0 = 0`, so the `entry = 0` case
(a `ZeroDivisionError` in Python) is out of scope of the theorems,
which assume `entry ≠ 0`. -/
def calculate_bybit_qty (rules : BybitRules) (entry sl balance risk : ℚ) : ℚ :=
  let risk_amount := balance * risk
  let price_diff_percent := |entry - sl| / entry
  if price_diff_percent = 0 then 0
  else
    let qty0 := risk_amount / |entry - sl|
    let qty1 := floorToStep qty0 rules.qtyStep
    let min_qty_for_notional := rules.minNotionalValue / entry
    let true_min_qty := max rules.minOrderQty min_qty_for_notional
    let true_min_qty2 := ceilToStep true_min_qty rules.qtyStep
    let qty2 :=
      if qty1 < true_min_qty2 then
        ceilToStep (true_min_qty2 * (1015/1000)) rules.qtyStep
      else qty1
    pyRound qty2 8

/-- Modelled from the spec: the notional-venue sizing formula exactly as
the claim words it (true minimum, step rounding, 1.5% buffer, 8-decimal
rounding), written independently for refinement comparison against
`calculate_bybit_qty`. -/
def bybitQtySpecModel (rules : BybitRules) (entry sl balance risk : ℚ) : ℚ :=
  if |entry - sl| = 0 then 0
  else
    let trueMinimum := ceilToStep (max rules.minOrderQty (rules.minNotionalValue / entry)) rules.qtyStep
    let riskQty := floorToStep (balance * risk / |entry - sl|) rules.qtyStep
    if riskQty < trueMinimum then
      pyRound (ceilToStep (trueMinimum * (1015/1000)) rules.qtyStep) 8
    else pyRound riskQty 8

/-- Embedding of `RiskManager.calculate_mt5_lot`
(src/backend/risk_manager.py, lines 14-45). -/
def calculate_mt5_lot (tickSize tickValue lotStep volMin volMax entry sl balance risk : ℚ) : ℚ :=
  let risk_amount := balance * risk
  let points_at_risk := |entry - sl|
  if points_at_risk = 0 then 0
  else if tickSize = 0 then 0
  else
    let lot0 := risk_amount / (points_at_risk / tickSize * tickValue)
    let lot1 := floorToStep lot0 lotStep
    let lot2 := max volMin (min volMax lot1)
    pyRound lot2 2

/-! ## trading_engine.py: execution planner (split mode) -/

/-- Embedding of the split-mode lot computation in
`TradingEngine._execute_mt5_trade` (src/backend/trading_engine.py,
lines 1013-1024): two percentage lots floored at the venue minimum,
a remainder third lot, and a collapse to `[total, 0, 0]` when the
remainder is non-positive or the three lots over-allocate by more
than 10%. -/
def splitModeLots (totalLot minV s0 s1 : ℚ) : List ℚ :=
  let lot1 := max minV (pyRound (totalLot * (s0/100)) 2)
  let lot2 := max minV (pyRound (totalLot * (s1/100)) 2)
  let lot3 := pyRound (totalLot - (lot1 + lot2)) 2
  if lot3 ≤ 0 ∨ lot1 + lot2 + lot3 > totalLot * (11/10) then [totalLot, 0, 0]
  else [lot1, lot2, lot3]

/-- Pairing of split lots with take-profit targets
(src/backend/trading_engine.py, lines 1026-1029): index `i` of the
first three targets gets an order of size `lots[i]` when that lot is
positive. -/
def splitOrders (lots tps : List ℚ) : List (ℚ × ℚ) :=
  ((tps.take 3).zip lots).filterMap (fun p => if 0 < p.2 then some (p.2, p.1) else none)

/-! ## trading_engine.py: progressive partial-close sizes -/

/-- Size of the TP1 partial close in `TradingEngine._manage_mt5_protection`
(src/backend/trading_engine.py, lines 560-562): the configured
percentage `s0` of the original volume, floored at the venue minimum
and clamped to the currently open volume. -/
def tp1CloseVol (origVol posVol minVol s0 : ℚ) : ℚ :=
  min (max minVol (pyRound (origVol * (s0 / 100)) 2)) posVol

/-- Size of the TP2 partial close (src/backend/trading_engine.py,
lines 598-602), computed against the refreshed remaining volume
`curVol` after the TP1 partial. -/
def tp2CloseVol (origVol curVol minVol s1 : ℚ) : ℚ :=
  min (max minVol (pyRound (origVol * (s1 / 100)) 2)) curVol

/-! ## Theorems: sizing and planner claims -/

/-- Claim C4: for the notional-venue (crypto) sizing function with
`entry ≠ 0`, the code agrees exactly with the spec formula - the
risk-derived quantity floored to the step, replaced by
`ceil(trueMinimum * 1.015 / qtyStep) * qtyStep` when it falls below the
step-ceiled true minimum `max(minQty, minNotional/entry)`, rounded to 8
decimal places - and a zero entry-stop distance yields quantity 0. -/
theorem calculate_bybit_qty_matches_spec (rules : BybitRules) (entry sl balance risk : ℚ)
    (h : entry ≠ 0) :
    calculate_bybit_qty rules entry sl balance risk = bybitQtySpecModel rules entry sl balance risk ∧
    (entry - sl = 0 → calculate_bybit_qty rules entry sl balance risk = 0) := by
  have hc : (|entry - sl| / entry = 0) ↔ (|entry - sl| = 0) := by
    rw [div_eq_zero_iff]
    simp [h]
  constructor
  · by_cases h2 : |entry - sl| = 0
    · rw [calculate_bybit_qty, bybitQtySpecModel, if_pos (hc.mpr h2), if_pos h2]
    · rw [calculate_bybit_qty, bybitQtySpecModel,
        if_neg (fun hx => h2 (hc.mp hx)), if_neg h2]
      dsimp only
      split_ifs <;> rfl
  · intro h3
    rw [calculate_bybit_qty, if_pos]
    rw [h3]
    simp

/-- Witness for C4 at the concrete spec example: entry 100, stop 99,
balance 1000, risk 1%, qtyStep 0.001, minQty 0.001, minNotional 5. -/
theorem calculate_bybit_qty_matches_spec_witness :
    (100 : ℚ) ≠ 0 ∧
    calculate_bybit_qty ⟨1/1000, 1/1000, 5⟩ 100 99 1000 (1/100) =
      bybitQtySpecModel ⟨1/1000, 1/1000, 5⟩ 100 99 1000 (1/100) :=
  ⟨by norm_num, (calculate_bybit_qty_matches_spec ⟨1/1000, 1/1000, 5⟩ 100 99 1000 (1/100) (by norm_num)).1⟩

/-- Claim C5: for percentage splits [33, 33, 34], total size 1.00 and
minimum increment 0.01, the three planned lots are [0.33, 0.33, 0.34]
and sum to exactly the total; and whenever the planner collapses to
`[total, 0, 0]`, the orders placed reduce to a single full-size order
on the first take-profit target. -/
theorem split_mode_sum_exact :
    splitModeLots 1 (1/100) 33 33 = [33/100, 33/100, 34/100] ∧
    (splitModeLots 1 (1/100) 33 33).sum = 1 ∧
    (∀ t a b c : ℚ, 0 < t → splitOrders [t, 0, 0] [a, b, c] = [(t, a)]) := by
  have hlots : splitModeLots 1 (1/100) 33 33 = [33/100, 33/100, 34/100] := by
    rw [splitModeLots]
    norm_num [pyRound, roundHalfEven]
  refine ⟨hlots, ?_, ?_⟩
  · rw [hlots]
    norm_num
  · intro t a b c ht
    simp [splitOrders, ht]

/-- Witness for C5 (for the collapse clause, which carries a
hypothesis): with total 1 the collapsed plan is one full-size order at
the first target. -/
theorem split_mode_sum_exact_witness :
    splitOrders [1, 0, 0] [5, 6, 7] = [((1 : ℚ), (5 : ℚ))] :=
  split_mode_sum_exact.2.2 1 5 6 7 (by norm_num)

/-- Claim C6: progressive partial closes are percentages of the
original sized total, each clamped to the volume still open when sent;
hence if the position volume at TP1 time is at most the original
volume, and the refreshed volume at TP2 time is at most what remained
after the TP1 partial close, the two partial sizes together never
exceed the original total. -/
theorem progressive_partials_bounded (origVol posVol curVol minVol s0 s1 : ℚ)
    (h1 : posVol ≤ origVol)
    (h2 : curVol ≤ posVol - tp1CloseVol origVol posVol minVol s0) :
    tp1CloseVol origVol posVol minVol s0 + tp2CloseVol origVol curVol minVol s1 ≤ origVol := by
  have a1 : tp1CloseVol origVol posVol minVol s0 ≤ posVol := min_le_right _ _
  have a2 : tp2CloseVol origVol curVol minVol s1 ≤ curVol := min_le_right _ _
  linarith

/-- Witness for C6: original volume 1, splits 33/33, venue minimum
0.01; TP1 closes 0.33, the venue then reports 0.67 remaining, TP2
closes 0.33; the partials sum to 0.66 which is at most 1. -/
theorem progressive_partials_bounded_witness :
    tp1CloseVol 1 1 (1/100) 33 + tp2CloseVol 1 (67/100) (1/100) 33 ≤ 1 :=
  progressive_partials_bounded 1 1 (67/100) (1/100) 33 33 (by norm_num)
    (by norm_num [tp1CloseVol, pyRound, roundHalfEven])

/-! ## trading_engine.py: stop-loss modification guard -/

/-- MT5 position direction. -/
inductive PosType
  | buy
  | sell
  deriving DecidableEq

/-- The fields of an MT5 position consumed by the engine
(`mt5.positions_get` entries). -/
structure MT5Pos where
  symbol : String
  ptype : PosType
  priceOpen : ℚ
  sl : ℚ
  tp : ℚ
  volume : ℚ
  ticket : String
  deriving DecidableEq

/-- The `mt5.symbol_info` fields consumed by `_modify_sl`. -/
structure SymInfo where
  point : ℚ
  digits : ℕ
  tradeStopsLevel : ℚ
  deriving DecidableEq

/-- A live bid/ask quote (`mt5.symbol_info_tick`). -/
structure Tick where
  bid : ℚ
  ask : ℚ
  deriving DecidableEq

/-- The stop-level clamp at the top of `TradingEngine._modify_sl`
(src/backend/trading_engine.py, lines 656-666): a candidate stop closer
to the current price than the venue minimum stop distance is pushed out
to that distance plus two points. -/
def clampSl (ptype : PosType) (newSl : ℚ) (info : SymInfo) (tick : Tick) : ℚ :=
  let stopLevelPrice := info.tradeStopsLevel * info.point
  match ptype with
  | .buy =>
      if tick.bid - newSl < stopLevelPrice then tick.bid - stopLevelPrice - info.point * 2
      else newSl
  | .sell =>
      if newSl - tick.ask < stopLevelPrice then tick.ask + stopLevelPrice + info.point * 2
      else newSl

/-- Embedding of `TradingEngine._modify_sl`
(src/backend/trading_engine.py, lines 650-684): clamp the candidate
stop, reject locally (`none`, no venue call) when the clamped stop does
not strictly improve on the current one, otherwise send the stop
rounded to the symbol digits (`some`). -/
def modify_sl (pos : MT5Pos) (newSl : ℚ) (info : SymInfo) (tick : Tick) : Option ℚ :=
  let ns := clampSl pos.ptype newSl info tick
  match pos.ptype with
  | .buy => if ns ≤ pos.sl then none else some (pyRound ns info.digits)
  | .sell => if pos.sl ≠ 0 ∧ pos.sl ≤ ns then none else some (pyRound ns info.digits)

/-- Claim C1: every candidate stop (breakeven, trailing, MOVE_SL) goes
through `_modify_sl`; for a BUY position a clamped stop at or below the
current stop is rejected locally with no venue call, for a SELL
position with a nonzero current stop a clamped stop at or above it is
rejected locally, and whenever a stop is sent the clamped value is
strictly on the protective side of the current stop. -/
theorem modify_sl_only_protective (pos : MT5Pos) (newSl : ℚ) (info : SymInfo) (tick : Tick) :
    (pos.ptype = .buy → clampSl .buy newSl info tick ≤ pos.sl →
      modify_sl pos newSl info tick = none) ∧
    (pos.ptype = .sell → pos.sl ≠ 0 → pos.sl ≤ clampSl .sell newSl info tick →
      modify_sl pos newSl info tick = none) ∧
    (∀ s, modify_sl pos newSl info tick = some s →
      (pos.ptype = .buy → pos.sl < clampSl .buy newSl info tick) ∧
      (pos.ptype = .sell → pos.sl ≠ 0 → clampSl .sell newSl info tick < pos.sl)) := by
  refine ⟨?_, ?_, ?_⟩
  · intro hb hle
    rw [modify_sl, hb]
    simp [hle]
  · intro hs hnz hge
    rw [modify_sl, hs]
    simp [hnz, hge]
  · intro s hsent
    cases hp : pos.ptype
    · rw [modify_sl, hp] at hsent
      constructor
      · intro _
        by_contra hcon
        push_neg at hcon
        simp [hcon] at hsent
      · intro habs
        exact absurd habs (by simp)
    · rw [modify_sl, hp] at hsent
      constructor
      · intro habs
        exact absurd habs (by simp)
      · intro _ hnz
        by_contra hcon
        push_neg at hcon
        simp [hnz, hcon] at hsent

/-- Witness for C1: a BUY position with current stop 5 and a candidate
stop 4 (unaffected by the clamp) is rejected locally. -/
theorem modify_sl_only_protective_witness :
    modify_sl ⟨"XAUUSD", .buy, 4, 5, 7, 1, "1"⟩ 4 ⟨1/100, 2, 0⟩ ⟨6, 6⟩ = none :=
  (modify_sl_only_protective ⟨"XAUUSD", .buy, 4, 5, 7, 1, "1"⟩ 4 ⟨1/100, 2, 0⟩ ⟨6, 6⟩).1 rfl
    (by norm_num [clampSl])

/-! ## trading_engine.py: tracked signals and reconciliation -/

/-- A tracked signal record as stored in `self.active_signals`
(the fields the reconciliation and protection code reads).  `ticket` is
`none` when the `ticket` key is absent (order submitted, fill
confirmation pending); venue tickets are carried as strings, matching
the `str(...)` comparisons in the code.  `stype` is the optional
`type` key (`crypto` for Bybit records). -/
structure Sig where
  symbol : String
  side : String
  entry : ℚ
  sl : ℚ
  tps : List ℚ
  ticket : Option String
  restored : Bool
  stype : Option String
  deriving DecidableEq

/-- The MT5 cleanup predicate of `TradingEngine._reconcile_positions`
(src/backend/trading_engine.py, lines 256-266): a record is kept unless
its ticket is set and absent from the live ticket set. -/
def mt5Keep (activeTickets : List String) (s : Sig) : Bool :=
  match s.ticket with
  | none => true
  | some t => activeTickets.contains t

/-- The MT5 stale-record cleanup pass: remove every record whose set
ticket is no longer live. -/
def mt5Cleanup (sigs : List Sig) (activeTickets : List String) : List Sig :=
  sigs.filter (mt5Keep activeTickets)

/-- Ticket string: `str(...)` of the ticket key, empty when the key is
absent. -/
def ticketStr (s : Sig) : String :=
  s.ticket.getD ("")

/-- Leading-substring test on strings, the Python `str.startswith`. -/
def strStarts (p s : String) : Bool :=
  p.data.isPrefixOf s.data

/-- The Bybit-record test of the Bybit cleanup pass
(src/backend/trading_engine.py, line 317): type `crypto`, or a ticket
starting with `bybit_` or `crypto_`. -/
def isBybitSig (s : Sig) : Bool :=
  s.stype == some ("crypto") || strStarts ("bybit_") (ticketStr s) || strStarts ("crypto_") (ticketStr s)

/-- The Bybit stale-record cleanup pass
(src/backend/trading_engine.py, lines 313-323): remove every
Bybit-tagged record whose symbol is not among the live Bybit symbols -
with no check of whether its ticket is set. -/
def bybitCleanup (sigs : List Sig) (activeSymbols : List String) : List Sig :=
  sigs.filter (fun s => !(isBybitSig s && !(activeSymbols.contains s.symbol)))

/-- MT5 orphan adoption in `TradingEngine._reconcile_positions`
(src/backend/trading_engine.py, lines 231-244): a live venue position
with no matching record is adopted as a restored record whose
take-profit list is `[p.tp]` when the venue reports a positive target
and empty otherwise. -/
def adoptMt5Orphan (p : MT5Pos) : Sig :=
  { symbol := p.symbol
    side := if p.ptype = .buy then ("BUY") else ("SELL")
    entry := p.priceOpen
    sl := p.sl
    tps := if 0 < p.tp then [p.tp] else []
    ticket := some p.ticket
    restored := true
    stype := none }

/-! ## trading_engine.py: protection-pass record lookup and TP1 read -/

/-- The record lookup at the top of the per-position protection pass
(src/backend/trading_engine.py, line 535): the first active signal
whose symbol equals the position symbol or whose ticket equals the
position ticket. -/
def findSignalData (sigs : List Sig) (posSymbol posTicket : String) : Option Sig :=
  sigs.find? (fun s => s.symbol == posSymbol || s.ticket == some posTicket)

/-- Outcome of the TP1 read in the protection pass. -/
inductive ProtStep
  | skipped
  | indexError
  | tp1 (v : ℚ)
  deriving DecidableEq

/-- The start of the per-position protection evaluation
(src/backend/trading_engine.py, lines 535-541): skip the position when
no record matches (`continue`), otherwise read index 0 of the record
take-profit list,
which raises `IndexError` when the take-profit list is empty. -/
def protectionTp1Step (sigs : List Sig) (posSymbol posTicket : String) : ProtStep :=
  match findSignalData sigs posSymbol posTicket with
  | none => .skipped
  | some s =>
      match s.tps with
      | [] => .indexError
      | v :: _ => .tp1 v

/-! ## Theorems: reconciliation claims -/

/-- A crypto-tagged record whose venue ticket is not yet set (fill
confirmation pending). -/
def pendingCryptoSig : Sig :=
  { symbol := "BTCUSDT", side := "BUY", entry := 100, sl := 90, tps := [110]
    ticket := none, restored := false, stype := some ("crypto") }

/-- Counterexample to claim C3 as stated: the Bybit reconciliation
cleanup deletes a tracked entry whose venue ticket is not set, because
it keys removal on the symbol being absent from the live Bybit list,
not on the ticket. -/
theorem bybit_cleanup_deletes_ticketless_counterexample :
    pendingCryptoSig.ticket = none ∧
    bybitCleanup [pendingCryptoSig] [] = [] := by
  constructor
  · rfl
  · rfl

/-- Claim C3 amended: the MT5 cleanup pass never deletes a record
without a ticket and removes a record only when its ticket is set and
absent from the live ticket list; the Bybit cleanup pass instead keys
on symbols - a record survives it exactly when it is not a
Bybit-tagged record whose symbol is missing from the live Bybit symbol
list, regardless of its ticket. -/
theorem reconcile_cleanup_amended (sigs : List Sig) (activeTickets activeSymbols : List String) :
    (∀ s ∈ sigs, s.ticket = none → s ∈ mt5Cleanup sigs activeTickets) ∧
    (∀ s ∈ sigs, s ∉ mt5Cleanup sigs activeTickets →
      ∃ t, s.ticket = some t ∧ t ∉ activeTickets) ∧
    (∀ s ∈ sigs, (s ∈ bybitCleanup sigs activeSymbols ↔
      ¬(isBybitSig s = true ∧ s.symbol ∉ activeSymbols))) := by
  refine ⟨?_, ?_, ?_⟩
  · intro s hs hnone
    rw [mt5Cleanup, List.mem_filter]
    exact ⟨hs, by simp [mt5Keep, hnone]⟩
  · intro s hs hnot
    rw [mt5Cleanup, List.mem_filter] at hnot
    push_neg at hnot
    have hkeep := hnot hs
    cases ht : s.ticket with
    | none => rw [mt5Keep, ht] at hkeep; simp at hkeep
    | some t =>
        refine ⟨t, rfl, fun hmem => ?_⟩
        rw [mt5Keep, ht] at hkeep
        exact hkeep (by simpa using hmem)
  · intro s hs
    rw [bybitCleanup, List.mem_filter]
    simp only [hs, true_and]
    cases h : isBybitSig s <;> simp [h]

/-- Witness for C3 (amended): a ticketless record survives the MT5
cleanup, and the same ticketless crypto record is removed by the Bybit
cleanup since its symbol is not live. -/
theorem reconcile_cleanup_amended_witness :
    pendingCryptoSig ∈ mt5Cleanup [pendingCryptoSig] [] ∧
    ¬(pendingCryptoSig ∈ bybitCleanup [pendingCryptoSig] []) :=
  ⟨(reconcile_cleanup_amended [pendingCryptoSig] [] []).1 pendingCryptoSig
      (List.mem_singleton.mpr rfl) rfl,
   fun hmem =>
     (by simp [isBybitSig, pendingCryptoSig, ticketStr, strStarts] :
        ¬¬(isBybitSig pendingCryptoSig = true ∧ pendingCryptoSig.symbol ∉ ([] : List String)))
       (((reconcile_cleanup_amended [pendingCryptoSig] [] []).2.2 pendingCryptoSig
         (List.mem_singleton.mpr rfl)).mp hmem)⟩

/-! ## Theorems: protection-pass lookup claims -/

/-- Claim C8: the protection evaluation reads the matched record
first take-profit unconditionally, so an adopted venue position that
reported no take-profit (stored with an empty list) makes the
out-of-bounds read reachable; the read is safe exactly when every
matched record has a non-empty take-profit list. -/
theorem protection_tp1_index_error_reachable (p : MT5Pos) (posSymbol posTicket : String)
    (htp : p.tp ≤ 0) :
    (adoptMt5Orphan p).tps = [] ∧
    (posSymbol = p.symbol →
      protectionTp1Step [adoptMt5Orphan p] posSymbol posTicket = .indexError) ∧
    (∀ sigs : List Sig,
      (∀ s, findSignalData sigs posSymbol posTicket = some s → s.tps ≠ []) →
      protectionTp1Step sigs posSymbol posTicket ≠ .indexError) := by
  have hempty : (adoptMt5Orphan p).tps = [] := by
    rw [adoptMt5Orphan]
    simp [not_lt.mpr htp]
  refine ⟨hempty, ?_, ?_⟩
  · intro hsym
    rw [protectionTp1Step, findSignalData]
    have hpred : ((adoptMt5Orphan p).symbol == posSymbol
        || (adoptMt5Orphan p).ticket == some posTicket) = true := by
      simp [adoptMt5Orphan, hsym]
    simp only [List.find?, hpred, hempty]
  · intro sigs hall
    rw [protectionTp1Step]
    cases hf : findSignalData sigs posSymbol posTicket with
    | none => simp
    | some s =>
        cases hts : s.tps with
        | nil => exact absurd hts (hall s hf)
        | cons v r => simp [hts]

/-- Witness for C8: adopting a venue position with no reported
take-profit and then evaluating protection for a position on the same
symbol hits the out-of-bounds branch. -/
theorem protection_tp1_index_error_reachable_witness :
    protectionTp1Step [adoptMt5Orphan ⟨"XAUUSD", .buy, 2000, 1990, 0, 1, "77"⟩]
      ("XAUUSD") ("77") = .indexError :=
  (protection_tp1_index_error_reachable ⟨"XAUUSD", .buy, 2000, 1990, 0, 1, "77"⟩ ("XAUUSD") ("77")
    (by norm_num)).2.1 rfl

/-! ## signal_parser.py: scanning primitives

The Python parser works with `re.search`/`re.findall` over the
uppercased message.  The embedding implements each of the fixed
patterns of `SignalParser.patterns` directly as a left-to-right scan
with the same leftmost-first, greedy-with-backtracking semantics on
the character list of the message. -/

/-- Uppercase ASCII letter, the `[A-Z]` character class. -/
def isUpperAlpha (c : Char) : Bool :=
  65 ≤ c.toNat && c.toNat ≤ 90

/-- Length of the maximal `[A-Z]` run at the head of the list. -/
def upperRun : List Char → Nat
  | [] => 0
  | c :: r => if isUpperAlpha c then upperRun r + 1 else 0

/-- Search (`re.search`) as a scan: try the position matcher `f` at every
position from the left, returning its first hit. -/
def scanFor {α : Type} (f : List Char → Option α) : List Char → Option α
  | [] => f []
  | c :: r =>
      match f (c :: r) with
      | some v => some v
      | none => scanFor f r

/-- Boolean variant of `scanFor`. -/
def scanAny (f : List Char → Bool) : List Char → Bool
  | [] => f []
  | c :: r => f (c :: r) || scanAny f r

/-- Whitespace skip `\s*`: drop leading whitespace. -/
def skipWs (s : List Char) : List Char :=
  s.dropWhile Char.isWhitespace

/-- Separator `\s*:?\s*`: optional colon surrounded by optional whitespace. -/
def afterSep (s : List Char) : List Char :=
  match skipWs s with
  | ':' :: r => skipWs r
  | r => r

/-- Split a leading digit run from the rest. -/
def takeDigits (s : List Char) : List Char × List Char :=
  (s.takeWhile Char.isDigit, s.dropWhile Char.isDigit)

/-- The capture group `(\d+\.?\d*)`: at least one digit, an optional
point, optional further digits; returns the captured text and the
rest. -/
def numAt (s : List Char) : Option (List Char × List Char) :=
  let p := takeDigits s
  if p.1.isEmpty then none
  else
    match p.2 with
    | '.' :: r2 =>
        let q := takeDigits r2
        some (p.1 ++ '.' :: q.1, q.2)
    | _ => some (p.1, p.2)

/-- Pattern `\s*:?\s*(\d+\.?\d*)`: separator then number capture. -/
def numAfterSep (s : List Char) : Option (List Char) :=
  (numAt (afterSep s)).map (fun p => p.1)

/-- Natural value of a digit run. -/
def natOfDigits (ds : List Char) : ℕ :=
  ds.foldl (fun a c => a * 10 + (c.toNat - 48)) 0

/-- Numeric value of a captured `\d+\.?\d*` string (`float(...)`). -/
def ratOfNum (cs : List Char) : ℚ :=
  let intPart := cs.takeWhile (fun c => c ≠ '.')
  let fracPart := (cs.dropWhile (fun c => c ≠ '.')).drop 1
  (natOfDigits intPart : ℚ) + (natOfDigits fracPart : ℚ) / 10 ^ fracPart.length

/-! ## signal_parser.py: the individual patterns -/

/-- The literal alternatives of the symbol pattern. -/
def symbolLits : List (List Char) :=
  ["GOLD".data, "XAUUSD".data, "BTCUSDT".data, "ETHUSDT".data,
   "BCHUSDT".data, "XRPUSDT".data, "SOLUSDT".data, "DOGEUSDT".data]

/-- Position matcher for the symbol pattern
`([A-Z]{3,}/?[A-Z]{3,}|GOLD|XAUUSD|BTCUSDT|...)`.  The first
alternative, with its greedy backtracking resolved: at a position
opening a run of `a` uppercase letters, it matches `run/run` when a
slash separates two runs of at least 3 letters, otherwise the whole
run when it has at least 6 letters; the literal alternatives are tried
only when the first fails. -/
def symbolAt (s : List Char) : Option (List Char) :=
  let a := upperRun s
  let tryLits : Option (List Char) :=
    (symbolLits.find? (fun l => l.isPrefixOf s))
  match s.drop a with
  | '/' :: rest =>
      let b := upperRun rest
      if 3 ≤ a ∧ 3 ≤ b then some (s.take a ++ '/' :: rest.take b)
      else if 6 ≤ a then some (s.take a)
      else tryLits
  | _ => if 6 ≤ a then some (s.take a) else tryLits

/-- Search for the symbol pattern. -/
def findSymbol (s : List Char) : Option (List Char) :=
  scanFor symbolAt s

/-- Side keywords, in the alternation order `BUY|SELL|LONG|SHORT`. -/
inductive SideTok
  | BUY
  | SELL
  | LONG
  | SHORT
  deriving DecidableEq

/-- Position matcher for `(BUY|SELL|LONG|SHORT)`. -/
def sideAt (s : List Char) : Option SideTok :=
  if ("BUY".data).isPrefixOf s then some .BUY
  else if ("SELL".data).isPrefixOf s then some .SELL
  else if ("LONG".data).isPrefixOf s then some .LONG
  else if ("SHORT".data).isPrefixOf s then some .SHORT
  else none

/-- Search for the side pattern. -/
def findSide (s : List Char) : Option SideTok :=
  scanFor sideAt s

/-- Position matcher for the entry pattern
`(?:ENTRY|PRICE|ENTER\s*(?:BELOW|AT|AROUND)?|AT|@)\s*:?\s*(\d+\.?\d*)`.
The alternatives are mutually exclusive on their first characters, so
the alternation order reduces to this case split; after `ENTER`, a
failed keyword continuation backtracks to the empty optional group. -/
def entryAt (s : List Char) : Option (List Char) :=
  if ("ENTRY".data).isPrefixOf s then numAfterSep (s.drop 5)
  else if ("PRICE".data).isPrefixOf s then numAfterSep (s.drop 5)
  else if ("ENTER".data).isPrefixOf s then
    let r := skipWs (s.drop 5)
    let withKw : Option (List Char) :=
      if ("BELOW".data).isPrefixOf r then numAfterSep (r.drop 5)
      else if ("AT".data).isPrefixOf r then numAfterSep (r.drop 2)
      else if ("AROUND".data).isPrefixOf r then numAfterSep (r.drop 6)
      else none
    match withKw with
    | some v => some v
    | none => numAfterSep r
  else if ("AT".data).isPrefixOf s then numAfterSep (s.drop 2)
  else if ("@".data).isPrefixOf s then numAfterSep (s.drop 1)
  else none

/-- Search for the entry pattern (`_extract_value` with
`patterns[price]`). -/
def findEntry (s : List Char) : Option (List Char) :=
  scanFor entryAt s

/-- Position matcher for the inline fallback
`(?:BUY|SELL|LONG|SHORT)\s+(\d+\.?\d*)` used when no keyword entry was
found. -/
def inlineEntryAt (s : List Char) : Option (List Char) :=
  let afterKw : Option (List Char) :=
    if ("BUY".data).isPrefixOf s then some (s.drop 3)
    else if ("SELL".data).isPrefixOf s then some (s.drop 4)
    else if ("LONG".data).isPrefixOf s then some (s.drop 4)
    else if ("SHORT".data).isPrefixOf s then some (s.drop 5)
    else none
  match afterKw with
  | none => none
  | some r =>
      match r with
      | [] => none
      | c :: rest =>
          if c.isWhitespace then (numAt (skipWs rest)).map (fun p => p.1)
          else none

/-- Search for the inline entry fallback. -/
def findInlineEntry (s : List Char) : Option (List Char) :=
  scanFor inlineEntryAt s

/-- Position matcher for the stop-loss pattern
`(?:SL|STOPLOSS|STOP\s*LOSS)\s*:?\s*(\d+\.?\d*)`. -/
def slAt (s : List Char) : Option (List Char) :=
  if ("SL".data).isPrefixOf s then numAfterSep (s.drop 2)
  else if ("STOPLOSS".data).isPrefixOf s then numAfterSep (s.drop 8)
  else if ("STOP".data).isPrefixOf s then
    let r := skipWs (s.drop 4)
    if ("LOSS".data).isPrefixOf r then numAfterSep (r.drop 4) else none
  else none

/-- Search for the stop-loss pattern. -/
def findSl (s : List Char) : Option (List Char) :=
  scanFor slAt s

/-- Position matcher for the update-action pattern
`(?:MOVE SL TO|SL TO|BE)\s*:?\s*(\d+\.?\d*)`.  The capture group is
mandatory and holds at least one digit, so a bare `BE` with no
following number does not match. -/
def moveSlAt (s : List Char) : Option (List Char) :=
  if ("MOVE SL TO".data).isPrefixOf s then numAfterSep (s.drop 10)
  else if ("SL TO".data).isPrefixOf s then numAfterSep (s.drop 5)
  else if ("BE".data).isPrefixOf s then numAfterSep (s.drop 2)
  else none

/-- Search for the MOVE_SL action pattern. -/
def findMoveSl (s : List Char) : Option (List Char) :=
  scanFor moveSlAt s

/-- The close keywords `HALF|PARTIAL|ALL|NOW`. -/
def closeKws : List (List Char) :=
  ["HALF".data, "PARTIAL".data, "ALL".data, "NOW".data]

/-- Position matcher for `(?:CLOSE|EXIT)\s+(?:HALF|PARTIAL|ALL|NOW)`. -/
def closeAt (s : List Char) : Bool :=
  let afterVerb : Option (List Char) :=
    if ("CLOSE".data).isPrefixOf s then some (s.drop 5)
    else if ("EXIT".data).isPrefixOf s then some (s.drop 4)
    else none
  match afterVerb with
  | none => false
  | some r =>
      match r with
      | [] => false
      | c :: rest =>
          c.isWhitespace && closeKws.any (fun k => k.isPrefixOf (skipWs rest))

/-- Search for the CLOSE action pattern. -/
def findClose (s : List Char) : Bool :=
  scanAny closeAt s

/-! ## signal_parser.py: take-profit extraction (`_extract_all_tps`) -/

/-- The capture group `(\d+\.\d+|\d{4,})` of the take-profit pattern:
either a decimal number, or a run of at least four digits. -/
def tpCapture (s : List Char) : Option (List Char × List Char) :=
  let p := takeDigits s
  if p.1.isEmpty then none
  else
    match p.2 with
    | '.' :: r2 =>
        let q := takeDigits r2
        if q.1.isEmpty then
          if 4 ≤ p.1.length then some (p.1, p.2) else none
        else some (p.1 ++ '.' :: q.1, q.2)
    | _ => if 4 ≤ p.1.length then some (p.1, p.2) else none

/-- Separator then the capture at the tail of the take-profit
pattern. -/
def tpTail (s : List Char) : Option (List Char × List Char) :=
  tpCapture (afterSep s)

/-- Greedy backtracking of the `\d*` between the TP keyword and the
price capture: try consuming `k` digits for `k` from the maximum down
to zero, first success wins. -/
def tpDigitsBt : Nat → List Char → Option (List Char × List Char)
  | 0, s => tpTail s
  | k+1, s =>
      match tpTail (s.drop (k+1)) with
      | some v => some v
      | none => tpDigitsBt k s

/-- Suffix of the take-profit pattern after the `TP|TARGET` keyword:
`\s*\d*\s*:?\s*(\d+\.\d+|\d{4,})`. -/
def tpAfterKw (r : List Char) : Option (List Char × List Char) :=
  let r2 := skipWs r
  tpDigitsBt (r2.takeWhile Char.isDigit).length r2

/-- Position matcher for the take-profit pattern
`(?:💰)?\s*(?:TP|TARGET)\s*\d*\s*:?\s*(\d+\.\d+|\d{4,})`.
An optional money-bag emoji is consumed when present (with it absent
the position cannot match anyway, since the emoji is not whitespace
and not part of a keyword). -/
def tpAt (s : List Char) : Option (List Char × List Char) :=
  let s1 := match s with
            | '💰' :: r => r
            | _ => s
  let s2 := skipWs s1
  if ("TP".data).isPrefixOf s2 then tpAfterKw (s2.drop 2)
  else if ("TARGET".data).isPrefixOf s2 then tpAfterKw (s2.drop 6)
  else none

/-- All matches (`re.findall`) of the take-profit pattern: scan left to right,
collect every non-overlapping match, resuming after each match; the
fuel argument (initialised to the text length, which bounds the number
of scan steps) keeps the recursion structural. -/
def findAllTpsAux : Nat → List Char → List (List Char)
  | 0, _ => []
  | _ + 1, [] => []
  | n + 1, c :: r =>
      match tpAt (c :: r) with
      | some p => p.1 :: findAllTpsAux n p.2
      | none => findAllTpsAux n r

/-- All raw take-profit captures in the text. -/
def findAllTps (s : List Char) : List (List Char) :=
  findAllTpsAux s.length s

/-- The dedup-and-filter loop of `_extract_all_tps`
(src/backend/signal_parser.py, lines 121-130): keep a capture when it
was not seen before and `float(tp) > 10 or '.' in tp`; only kept
captures are added to `seen`.  On the capture shapes of this pattern
(digits with an optional fractional part) the Python disjunction is
equivalent to: a decimal point is present, or the pure-digit capture
exceeds 10 as an integer - which keeps the test kernel-computable. -/
def dedupFilterTps : List (List Char) → List (List Char) → List (List Char)
  | _, [] => []
  | seen, tp :: r =>
      if !(seen.contains tp) && (tp.contains '.' || decide (10 < natOfDigits tp)) then
        tp :: dedupFilterTps (tp :: seen) r
      else dedupFilterTps seen r

/-- Embedding of `SignalParser._extract_all_tps` (src/backend/signal_parser.py,
lines 108-130). -/
def extract_all_tps (s : List Char) : List (List Char) :=
  dedupFilterTps [] (findAllTps s)

/-! ## signal_parser.py: parse_message -/

/-- The update-action marker of a parsed signal. -/
inductive Action
  | MOVE_SL
  | CLOSE
  deriving DecidableEq

/-- The `action_val` payload: a parsed number, or the literal
breakeven marker `"BE"` (assigned when the capture group is empty). -/
inductive ActionVal
  | num (v : ℚ)
  | be
  deriving DecidableEq

/-- A parsed signal: the dict built by `SignalParser.parse_message`
(src/backend/signal_parser.py, lines 87-99), timestamps aside.
`ctype` is the `type` entry taken from the channel info. -/
structure ParsedSignal where
  symbol : String
  side : String
  entry : Option ℚ
  sl : Option ℚ
  tps : List ℚ
  action : Option Action
  actionVal : Option ActionVal
  channelName : String
  ctype : String
  deriving DecidableEq

/-- Embedding of `SignalParser.parse_message`
(src/backend/signal_parser.py, lines 29-102): uppercase the text; fail
on a missing symbol; fail on a missing BUY/SELL/LONG/SHORT keyword;
extract entry (keyword pattern, then the inline-after-side fallback),
stop-loss, take-profits and update action; fail when entry, stop,
take-profits and action are all absent; otherwise return the signal. -/
def parse_message (text : List Char) (channelName ctype : String) : Option ParsedSignal :=
  let t := text.map Char.toUpper
  match findSymbol t with
  | none => none
  | some symRaw =>
      match findSide t with
      | none => none
      | some st =>
          let side := if st = SideTok.BUY ∨ st = SideTok.LONG then ("BUY") else ("SELL")
          let entry : Option (List Char) :=
            match findEntry t with
            | some e => some e
            | none => findInlineEntry t
          let sl := findSl t
          let tps := extract_all_tps t
          let actionPair : Option Action × Option ActionVal :=
            match findMoveSl t with
            | some cap =>
                (some .MOVE_SL, some (if cap.isEmpty then .be else .num (ratOfNum cap)))
            | none =>
                if findClose t then (some .CLOSE, none) else (none, none)
          if entry.isNone && sl.isNone && tps.isEmpty && actionPair.1.isNone then none
          else some
            { symbol := String.mk (symRaw.filter (fun c => c ≠ '/'))
              side := side
              entry := entry.map ratOfNum
              sl := sl.map ratOfNum
              tps := tps.map ratOfNum
              action := actionPair.1
              actionVal := actionPair.2
              channelName := channelName
              ctype := ctype }

/-! ## Theorems: parser claims -/

/-- Counterexample to claim C2 as stated: a message with a recognized
symbol and a MOVE_SL update action but no BUY/SELL/LONG/SHORT keyword
parses to `none` - the side check at step 2 of `parse_message` fails
before update actions are even considered. -/
theorem parse_update_without_side_counterexample :
    findSymbol ("XAUUSD MOVE SL TO 2020".data) = some ("XAUUSD".data) ∧
    findMoveSl ("XAUUSD MOVE SL TO 2020".data) = some ("2020".data) ∧
    findSide ("XAUUSD MOVE SL TO 2020".data) = none ∧
    parse_message ("XAUUSD MOVE SL TO 2020".data) ("chan") ("forex") = none := by
  exact ⟨by decide, by decide, by decide, by decide⟩

/-- Claim C2 amended: the parser returns `none` for every message with
no side keyword, even when a symbol and an update action are present -
side is mandatory for updates too; when a symbol and a side keyword are
both found, a recognized update action always yields a signal carrying
that action. -/
theorem parse_requires_side_amended (text : List Char) (cn ct : String) :
    (findSide (text.map Char.toUpper) = none → parse_message text cn ct = none) ∧
    (∀ sym st cap,
      findSymbol (text.map Char.toUpper) = some sym →
      findSide (text.map Char.toUpper) = some st →
      findMoveSl (text.map Char.toUpper) = some cap →
      ∃ sig, parse_message text cn ct = some sig ∧ sig.action = some Action.MOVE_SL) ∧
    (∀ sym st,
      findSymbol (text.map Char.toUpper) = some sym →
      findSide (text.map Char.toUpper) = some st →
      findMoveSl (text.map Char.toUpper) = none →
      findClose (text.map Char.toUpper) = true →
      ∃ sig, parse_message text cn ct = some sig ∧ sig.action = some Action.CLOSE) := by
  refine ⟨?_, ?_, ?_⟩
  · intro h
    cases hs : findSymbol (text.map Char.toUpper) with
    | none => simp [parse_message, hs]
    | some sym => simp [parse_message, hs, h]
  · intro sym st cap h1 h2 h3
    simp only [parse_message, h1, h2, h3]
    simp only [Option.isNone_some, Bool.and_false, Bool.false_eq_true, if_false]
    exact ⟨_, rfl, rfl⟩
  · intro sym st h1 h2 h3 h4
    simp only [parse_message, h1, h2, h3, h4]
    simp only [if_true, Option.isNone_some, Bool.and_false, Bool.false_eq_true, if_false]
    exact ⟨_, rfl, rfl⟩

/-- Witness for C2 (amended): a message with a symbol but no side
keyword parses to `none`. -/
theorem parse_requires_side_amended_witness :
    parse_message ("EURUSD TP 1.2345".data) ("chan") ("forex") = none :=
  (parse_requires_side_amended ("EURUSD TP 1.2345".data) ("chan") ("forex")).1 (by decide)

/-! ## trading_engine.py: deduplication gate and dispatch -/

/-- The dedup cache `self._recent_signals`: `f"{symbol}_{side}"` keys
mapped to the timestamp of the last accepted signal for that key. -/
abbrev DedupCache := List (String × ℚ)

/-- Cache lookup with default 0 (`dict.get`). -/
def cacheLookup (c : DedupCache) (k : String) : ℚ :=
  match c.find? (fun p => p.1 == k) with
  | some p => p.2
  | none => 0

/-- Cache write: dict insert-or-replace, keeping the position of an
existing key. -/
def cacheSet (c : DedupCache) (k : String) (v : ℚ) : DedupCache :=
  if c.any (fun p => p.1 == k) then
    c.map (fun p => if p.1 == k then (k, v) else p)
  else c ++ [(k, v)]

/-- The cleanup comprehension (keep entries with `v > cutoff`)
(src/backend/trading_engine.py, lines 733-735). -/
def dedupPurge (c : DedupCache) (cutoff : ℚ) : DedupCache :=
  c.filter (fun p => cutoff < p.2)

/-- The deduplication check of `TradingEngine.on_message_received`
(src/backend/trading_engine.py, lines 722-735): a signal seen strictly
within 10 time units of the last accepted one with the same key is
rejected, leaving the cache untouched; an accepted signal refreshes its
key and then purges entries older than 60 units. -/
def dedupCheck (c : DedupCache) (k : String) (now : ℚ) : Bool × DedupCache :=
  if now - cacheLookup c k < 10 then (false, c)
  else (true, dedupPurge (cacheSet c k now) (now - 60))

/-- The dispatch outcome of `on_message_received` after parsing. -/
inductive Dispatch
  | notParsed
  | duplicate
  | update (a : Action)
  | spreadAbort
  | trade
  deriving DecidableEq

/-- The post-parse control flow of `TradingEngine.on_message_received`
(src/backend/trading_engine.py, lines 701-752): an unparsed message is
dropped; every parsed signal goes through the dedup gate; a surviving
signal with an update action goes to `handle_signal_update`, otherwise
the spread gate decides between abort and trade execution.  The spread
check result (venue I/O) is passed in as `spreadOk`. -/
def on_message_received (sig? : Option ParsedSignal) (cache : DedupCache) (now : ℚ)
    (spreadOk : Bool) : Dispatch × DedupCache :=
  match sig? with
  | none => (.notParsed, cache)
  | some s =>
      let res := dedupCheck cache (s.symbol ++ "_" ++ s.side) now
      if res.1 = false then (.duplicate, cache)
      else
        match s.action with
        | some a => (.update a, res.2)
        | none => if spreadOk = false then (.spreadAbort, res.2) else (.trade, res.2)

/-- Dispatch from the raw text: parse, then `on_message_received`. -/
def on_message (text : List Char) (cn ct : String) (cache : DedupCache) (now : ℚ)
    (spreadOk : Bool) : Dispatch × DedupCache :=
  on_message_received (parse_message text cn ct) cache now spreadOk

/-! ## Theorems: dedup-gate claims -/

/-- A dedup cache holding a fresh entry and a stale entry. -/
def staleCache : DedupCache :=
  [("BTCUSDT_BUY", 65), ("EURUSD_SELL", 0)]

/-- Counterexample to the purge clause of claim C7 as stated: a check
that rejects a duplicate returns before the purge, so a cache entry
older than 60 time units survives that check untouched. -/
theorem dedup_rejected_check_skips_purge_counterexample :
    dedupCheck staleCache ("BTCUSDT_BUY") 70 = (false, staleCache) ∧
    ("EURUSD_SELL", (0 : ℚ)) ∈ (dedupCheck staleCache ("BTCUSDT_BUY") 70).2 ∧
    (0 : ℚ) < 70 - 60 := by
  have hl : cacheLookup staleCache ("BTCUSDT_BUY") = 65 := by decide
  have hd : dedupCheck staleCache ("BTCUSDT_BUY") 70 = (false, staleCache) := by
    rw [dedupCheck, hl, if_pos (by norm_num)]
  refine ⟨hd, ?_, by norm_num⟩
  rw [hd]
  decide

/-- Claim C7 amended: a second signal for the same key strictly within
10 units is rejected with the cache unchanged (no timestamp refresh);
at or beyond 10 units it is accepted, its key is refreshed, and the
check of an *accepted* signal purges every entry older than 60 units -
a rejected duplicate performs no purge. -/
theorem dedup_gate_amended (c : DedupCache) (k : String) (now : ℚ) :
    (now - cacheLookup c k < 10 → dedupCheck c k now = (false, c)) ∧
    (10 ≤ now - cacheLookup c k →
      dedupCheck c k now = (true, dedupPurge (cacheSet c k now) (now - 60)) ∧
      ∀ p ∈ (dedupCheck c k now).2, now - 60 < p.2) := by
  constructor
  · intro h
    rw [dedupCheck, if_pos h]
  · intro h
    have hn : ¬(now - cacheLookup c k < 10) := not_lt.mpr h
    refine ⟨by rw [dedupCheck, if_neg hn], ?_⟩
    intro p hp
    rw [dedupCheck, if_neg hn] at hp
    simp only at hp
    rw [dedupPurge, List.mem_filter] at hp
    simpa using hp.2

/-- Witness for C7 (amended): at time 3, a key accepted at time 0 is
still inside the 10-unit window, so the check rejects and leaves the
cache unchanged. -/
theorem dedup_gate_amended_witness :
    dedupCheck [("K", (0 : ℚ))] ("K") 3 = (false, [("K", (0 : ℚ))]) :=
  (dedup_gate_amended [("K", (0 : ℚ))] ("K") 3).1
    (by rw [show cacheLookup [("K", (0 : ℚ))] ("K") = 0 from by decide]; norm_num)

/-- Claim C10: every parsed signal, update actions included, passes the
dedup gate before dispatch; an update signal whose key was accepted
strictly less than 10 units earlier is dropped as a duplicate, the
cache is left unchanged, and the update is never applied. -/
theorem update_signal_dropped_by_dedup (s : ParsedSignal) (cache : DedupCache) (now : ℚ)
    (spreadOk : Bool) (a : Action) (ha : s.action = some a)
    (hdup : now - cacheLookup cache (s.symbol ++ "_" ++ s.side) < 10) :
    on_message_received (some s) cache now spreadOk = (.duplicate, cache) ∧
    ∀ a2 c2, on_message_received (some s) cache now spreadOk ≠ (.update a2, c2) := by
  have hd : dedupCheck cache (s.symbol ++ "_" ++ s.side) now = (false, cache) := by
    rw [dedupCheck, if_pos hdup]
  have hmain : on_message_received (some s) cache now spreadOk = (.duplicate, cache) := by
    rw [on_message_received]
    simp [hd]
  refine ⟨hmain, ?_⟩
  intro a2 c2 habs
  rw [hmain] at habs
  exact absurd (congrArg Prod.fst habs) (by simp)

/-- A parsed MOVE_SL update signal for XAUUSD BUY. -/
def updSignal : ParsedSignal :=
  { symbol := "XAUUSD", side := "BUY", entry := none, sl := none, tps := [],
    action := some Action.MOVE_SL, actionVal := some (ActionVal.num 2020),
    channelName := "chan", ctype := "forex" }

/-- Witness for C10: a MOVE_SL update for XAUUSD BUY arriving 3 units
after an accepted XAUUSD BUY signal is dropped. -/
theorem update_signal_dropped_by_dedup_witness :
    on_message_received (some updSignal) [("XAUUSD_BUY", (5 : ℚ))] 8 true
      = (Dispatch.duplicate, [("XAUUSD_BUY", (5 : ℚ))]) :=
  (update_signal_dropped_by_dedup updSignal [("XAUUSD_BUY", (5 : ℚ))] 8 true
    Action.MOVE_SL rfl
    (by rw [show cacheLookup [("XAUUSD_BUY", (5 : ℚ))] (updSignal.symbol ++ "_" ++ updSignal.side) = 5
          from by decide]
        norm_num)).1

/-! ## Theorems: protection-pass record sharing (claim C9) -/

/-- A tracked record for EURUSD whose venue ticket is 111. -/
def sigEUR : Sig :=
  { symbol := "EURUSD", side := "BUY", entry := 1, sl := 0, tps := [(3 : ℚ)]
    ticket := some ("111"), restored := false, stype := none }

/-- A tracked record for XAUUSD whose venue ticket is 222. -/
def sigXAU : Sig :=
  { symbol := "XAUUSD", side := "BUY", entry := 2000, sl := 1990, tps := [(5 : ℚ)]
    ticket := some ("222"), restored := false, stype := none }

/-- Counterexample to the second half of claim C9 as stated: two open
positions on the same symbol (XAUUSD, tickets 111 and 222) are driven
by different records - the first position matches an earlier record by
ticket alone, so the two positions see different first take-profits. -/
theorem same_symbol_positions_different_records_counterexample :
    findSignalData [sigEUR, sigXAU] ("XAUUSD") ("111") = some sigEUR ∧
    findSignalData [sigEUR, sigXAU] ("XAUUSD") ("222") = some sigXAU ∧
    sigEUR ≠ sigXAU ∧
    protectionTp1Step [sigEUR, sigXAU] ("XAUUSD") ("111") = .tp1 3 ∧
    protectionTp1Step [sigEUR, sigXAU] ("XAUUSD") ("222") = .tp1 5 := by
  refine ⟨by decide, by decide, by decide, by decide, by decide⟩

/-- Find-first respects pointwise-equal predicates on the members of
the list. -/
theorem find?_congr_pred {α : Type} (p q : α → Bool) :
    ∀ l : List α, (∀ a ∈ l, p a = q a) → l.find? p = l.find? q
  | [], _ => rfl
  | a :: l, h => by
      rw [List.find?, List.find?, h a (List.mem_cons_self a l)]
      cases hq : q a
      · exact find?_congr_pred p q l (fun b hb => h b (List.mem_cons_of_mem a hb))
      · rfl

/-- Claim C9 amended: the record driving a position is the first active
signal matching the position by symbol or by ticket; two open positions
on the same symbol are driven by the same record provided every record
matching either position by ticket also carries that symbol (so no
earlier record is picked up by ticket alone) - without that proviso
the two positions can be driven by different records. -/
theorem find_signal_data_first_match_amended (sigs : List Sig) (sym t1 t2 : String) :
    (∀ s, findSignalData sigs sym t1 = some s →
      s ∈ sigs ∧ (s.symbol = sym ∨ s.ticket = some t1)) ∧
    ((∀ s ∈ sigs, s.ticket = some t1 → s.symbol = sym) →
      (∀ s ∈ sigs, s.ticket = some t2 → s.symbol = sym) →
      findSignalData sigs sym t1 = findSignalData sigs sym t2) := by
  constructor
  · intro s h
    refine ⟨List.mem_of_find?_eq_some h, ?_⟩
    have hp := List.find?_some h
    simpa using hp
  · intro h1 h2
    rw [findSignalData, findSignalData]
    apply find?_congr_pred
    intro s hs
    by_cases hsym : s.symbol = sym
    · simp [hsym]
    · have e1 : s.ticket ≠ some t1 := fun he => hsym (h1 s hs he)
      have e2 : s.ticket ≠ some t2 := fun he => hsym (h2 s hs he)
      have b1 : (s.ticket == some t1) = false := beq_eq_false_iff_ne.mpr e1
      have b2 : (s.ticket == some t2) = false := beq_eq_false_iff_ne.mpr e2
      rw [b1, b2]

/-- Witness for C9 (amended): with a single record whose symbol matches
and whose ticket matches neither position, both same-symbol positions
resolve to the same record. -/
theorem find_signal_data_first_match_amended_witness :
    findSignalData [sigXAU] ("XAUUSD") ("1") = findSignalData [sigXAU] ("XAUUSD") ("2") :=
  (find_signal_data_first_match_amended [sigXAU] ("XAUUSD") ("1") ("2")).2
    (by decide) (by decide)

end UnifiedTrading
